import Mathlib

/-!
Verification of the configuration-merge and command-synthesis core of the
nn_serv repository (scripts/lambda_cloud_api.py, src/services/wan2.py,
src/main.py), shallowly embedded in Lean.

Python values coming from YAML/CLI are modelled by the inductive `PyVal`;
Python exceptions that abort the invocation (SystemExit carrying a message)
are modelled by `Except CliError`, with `CliError` classifying each message
by the field or offending datum it names.
-/

set_option autoImplicit false

namespace NnServ

/-- Error kinds raised by the CLI validation/normalization layer.  Each
constructor corresponds to one family of SystemExit messages in
scripts/lambda_cloud_api.py and carries the datum that the message names. -/
inductive CliError where
  | missingRequiredOption (field : String)
  | invalidOptionType (typeName : String)
  | invalidFormat (item : String)
  | invalidMountPath (mountPoint : String)
  deriving Repr, DecidableEq

/-- Model of a Python/YAML value as it flows through the launch CLI. -/
inductive PyVal where
  | none
  | str (s : String)
  | int (n : Int)
  | bool (b : Bool)
  | list (xs : List PyVal)
  | dict (kvs : List (String × PyVal))
  deriving Repr

/-- The Python type name, as produced by type(value).__name__. -/
def PyVal.typeName : PyVal → String
  | .none => "NoneType"
  | .str _ => "str"
  | .int _ => "int"
  | .bool _ => "bool"
  | .list _ => "list"
  | .dict _ => "dict"

/-- Python truthiness of a value (bool(value)). -/
def PyVal.truthy : PyVal → Bool
  | .none => false
  | .str s => !(s == "")
  | .int n => !(n == 0)
  | .bool b => b
  | .list xs => !xs.isEmpty
  | .dict kvs => !kvs.isEmpty

/-- Python `a or b`: the first operand if truthy, else the second. -/
def pyOr (a b : PyVal) : PyVal := if a.truthy then a else b

/-- An optional CLI string argument viewed as a Python value (None or str). -/
def optStr : Option String → PyVal
  | Option.none => .none
  | Option.some s => .str s

/-- A tag entry, mirroring the Python dicts of shape key/value built by
_parse_key_value and _normalize_config_tags. -/
structure Tag where
  key : String
  value : String
  deriving Repr, DecidableEq

/-- A filesystem mount entry, mirroring the Python dicts of shape
file_system_id/mount_point. -/
structure Mount where
  file_system_id : String
  mount_point : String
  deriving Repr, DecidableEq

/-- scripts/lambda_cloud_api.py _ensure_list, list branch: iterate the
entries, skip None items, collect strings, abort on the first entry of any
other type (message: Expected string entries in list, found T). -/
def ensureListItems : List PyVal → Except CliError (List String)
  | [] => .ok []
  | PyVal.none :: rest => ensureListItems rest
  | PyVal.str s :: rest => do pure (s :: (← ensureListItems rest))
  | item :: _ => .error (.invalidOptionType item.typeName)

/-- scripts/lambda_cloud_api.py _ensure_list: None becomes [], a string
becomes a one-element list, a list is traversed by `ensureListItems`, and
any other value aborts (message: Expected string or list, got T). -/
def _ensure_list : PyVal → Except CliError (List String)
  | .none => .ok []
  | .str s => .ok [s]
  | .list xs => ensureListItems xs
  | v => .error (.invalidOptionType v.typeName)

/-- Split a character list at the first occurrence of `c`, mirroring the
Python expression s.split(c, 1) when c occurs in s (and its absence when
the result is `Option.none`). -/
def splitFirst (c : Char) : List Char → Option (List Char × List Char)
  | [] => Option.none
  | x :: rest =>
    if x = c then Option.some ([], rest)
    else
      match splitFirst c rest with
      | Option.none => Option.none
      | Option.some (l, r) => Option.some (x :: l, r)

/-- scripts/lambda_cloud_api.py _parse_key_value: abort with the
invalid-tag message when no = is present, otherwise split on the first =
into key and value. -/
def _parse_key_value (item : String) : Except CliError Tag :=
  match splitFirst '=' item.data with
  | Option.none => .error (.invalidFormat item)
  | Option.some (k, v) => .ok ⟨String.mk k, String.mk v⟩

/-- Whitespace as recognized by the argument-free Python str.split and
str.strip (ASCII; exotic Unicode space code points are immaterial
here). -/
def pyIsSpace (c : Char) : Bool :=
  c == ' ' || c == '\t' || c == '\n' || c == '\r' || c == '\x0b' || c == '\x0c'

/-- Python str.strip(): drop whitespace from both ends. -/
def pyStrip (s : String) : String :=
  String.mk ((((s.data.dropWhile pyIsSpace).reverse).dropWhile pyIsSpace).reverse)

/-- Python s.startswith for the one-character prefix slash. -/
def startsWithSlash (s : String) : Bool :=
  match s.data with
  | '/' :: _ => true
  | _ => false

/-- scripts/lambda_cloud_api.py _parse_filesystem_mount: abort when no =
is present; split on the first =, strip the right-hand side, abort when it
does not start with a slash, else build the mount record (the id is also
stripped). -/
def _parse_filesystem_mount (item : String) : Except CliError Mount :=
  match splitFirst '=' item.data with
  | Option.none => .error (.invalidFormat item)
  | Option.some (fs, mp) =>
    let mount_point := pyStrip (String.mk mp)
    if startsWithSlash mount_point then .ok ⟨pyStrip (String.mk fs), mount_point⟩
    else .error (.invalidMountPath mount_point)

/-- scripts/lambda_cloud_api.py _dedupe_preserve_order, with the Python
set `seen` modelled as the list of already-kept items. -/
def dedupeAux (seen : List String) : List String → List String
  | [] => []
  | x :: rest =>
    if seen.contains x then dedupeAux seen rest
    else x :: dedupeAux (x :: seen) rest

/-- scripts/lambda_cloud_api.py _dedupe_preserve_order. -/
def _dedupe_preserve_order (items : List String) : List String :=
  dedupeAux [] items

/-- Python repr(value).  String escaping inside quotes is elided (the
claims only ever inspect emptiness of rendered values). -/
def PyVal.pyRepr : PyVal → String
  | .none => "None"
  | .str s => String.mk ('\x27' :: s.data) ++ String.mk ['\x27']
  | .int n => toString n
  | .bool b => if b then "True" else "False"
  | .list xs =>
    "[" ++ ", ".intercalate (xs.attach.map (fun x => PyVal.pyRepr x.1)) ++ "]"
  | .dict kvs =>
    "\x7b" ++ ", ".intercalate (kvs.attach.map (fun p =>
      String.mk ('\x27' :: p.1.1.data) ++ String.mk ['\x27'] ++ ": " ++ PyVal.pyRepr p.1.2)) ++ "\x7d"
decreasing_by
  · simp_wf
    have := List.sizeOf_lt_of_mem x.2
    omega
  · simp_wf
    obtain ⟨⟨a, b⟩, hmem⟩ := p
    have := List.sizeOf_lt_of_mem hmem
    simp only [Prod.mk.sizeOf_spec] at this
    simp only []
    omega

/-- Python str(value): the string itself for str, repr otherwise. -/
def PyVal.pyStr : PyVal → String
  | .str s => s
  | v => v.pyRepr

/-- Lookup in a Python dict modelled as an insertion-ordered association
list: d.get(k) returning None when absent, d[k] when known present. -/
def dGet (kvs : List (String × PyVal)) (k : String) : PyVal :=
  match kvs.find? (fun p => p.1 == k) with
  | Option.some p => p.2
  | Option.none => .none

/-- k in d for a Python dict modelled as an association list. -/
def hasKeyD (kvs : List (String × PyVal)) (k : String) : Bool :=
  kvs.any (fun p => p.1 == k)

/-- One entry of _normalize_config_mounts: a string goes through
_parse_filesystem_mount; a dict must carry file_system_id/mount_point or
name/mount_point (name aliasing file_system_id), its values rendered with
str(); anything else aborts naming the entry type. -/
def normMountItem (v : PyVal) : Except CliError Mount :=
  match v with
  | .str s => _parse_filesystem_mount s
  | .dict kvs =>
    if hasKeyD kvs "file_system_id" && hasKeyD kvs "mount_point" then
      .ok ⟨(dGet kvs "file_system_id").pyStr, (dGet kvs "mount_point").pyStr⟩
    else if hasKeyD kvs "name" && hasKeyD kvs "mount_point" then
      .ok ⟨(dGet kvs "name").pyStr, (dGet kvs "mount_point").pyStr⟩
    else .error (.invalidOptionType "dict")
  | other => .error (.invalidOptionType other.typeName)

/-- scripts/lambda_cloud_api.py _normalize_config_mounts: None becomes [],
a list is traversed entrywise, any other value is wrapped as a singleton
and traversed. -/
def _normalize_config_mounts (v : PyVal) : Except CliError (List Mount) :=
  match v with
  | .none => .ok []
  | .list xs => xs.mapM normMountItem
  | other => [other].mapM normMountItem

/-- One list entry of _normalize_config_tags: a dict carrying key/value is
rendered with str(); a string goes through _parse_key_value; anything else
(including a dict without those keys) aborts naming the entry type. -/
def normTagItem (v : PyVal) : Except CliError Tag :=
  match v with
  | .dict kvs =>
    if hasKeyD kvs "key" && hasKeyD kvs "value" then
      .ok ⟨(dGet kvs "key").pyStr, (dGet kvs "value").pyStr⟩
    else .error (.invalidOptionType v.typeName)
  | .str s => _parse_key_value s
  | other => .error (.invalidOptionType other.typeName)

/-- scripts/lambda_cloud_api.py _normalize_config_tags: None becomes [],
a dict becomes one key/value pair per entry (keys already strings in this
model), a list is traversed entrywise, a string is parsed as one
KEY=VALUE pair, anything else aborts naming its type. -/
def _normalize_config_tags (v : PyVal) : Except CliError (List Tag) :=
  match v with
  | .none => .ok []
  | .dict kvs => .ok (kvs.map (fun p => ⟨p.1, p.2.pyStr⟩))
  | .list xs => xs.mapM normTagItem
  | .str s => do pure [← _parse_key_value s]
  | other => .error (.invalidOptionType other.typeName)

/-- Assignment into a Python dict modelled as an insertion-ordered
association list: an existing key keeps its position and receives the new
value, a new key is appended. -/
def dictInsert (m : List Tag) (k v : String) : List Tag :=
  if m.any (fun t => t.key == k) then
    m.map (fun t => if t.key == k then ⟨k, v⟩ else t)
  else m ++ [⟨k, v⟩]

/-- Fold one tag list into the accumulating merged dict. -/
def foldIns (m : List Tag) (ts : List Tag) : List Tag :=
  ts.foldl (fun acc t => dictInsert acc t.key t.value) m

/-- scripts/lambda_cloud_api.py _merge_tags: pour every tag list into one
insertion-ordered dict (later values win per key), then read the dict back
out as key/value records. -/
def _merge_tags (tag_lists : List (List Tag)) : List Tag :=
  let merged := tag_lists.foldl foldIns []
  merged.map (fun t => Tag.mk t.key t.value)

/-- The argparse namespace for the launch-instance subcommand: each field
is None when the flag was not given; repeatable flags accumulate into a
list (argparse append starts from None). -/
structure LaunchArgs where
  region : Option String := Option.none
  instance_type : Option String := Option.none
  ssh_keys : Option (List String) := Option.none
  name : Option String := Option.none
  hostname : Option String := Option.none
  tag : Option (List String) := Option.none
  user_data_file : Option String := Option.none
  filesystems : Option (List String) := Option.none
  filesystem_mounts : Option (List String) := Option.none

/-- The launch section of the loaded YAML config, as a Python dict. -/
abbrev ConfigLaunch := List (String × PyVal)

/-- Python `args.ssh_keys or config_ssh` on an optional list: the CLI list
when truthy (present and non-empty), else the config list. -/
def listOr (a : Option (List String)) (b : List String) : List String :=
  match a with
  | Option.some l => if l.isEmpty then b else l
  | Option.none => b

/-- Truthiness of an optional CLI string (None and the empty string are
falsy). -/
def optTruthy : Option String → Bool
  | Option.none => false
  | Option.some s => !(s == "")

/-- cmd_launch_instance: region = args.region or config region or config
region_name. -/
def resolvedRegion (args : LaunchArgs) (cfg : ConfigLaunch) : PyVal :=
  pyOr (optStr args.region) (pyOr (dGet cfg "region") (dGet cfg "region_name"))

/-- cmd_launch_instance: instance_type = args.instance_type or config
instance_type or config instance_type_name. -/
def resolvedInstanceType (args : LaunchArgs) (cfg : ConfigLaunch) : PyVal :=
  pyOr (optStr args.instance_type)
    (pyOr (dGet cfg "instance_type") (dGet cfg "instance_type_name"))

/-- cmd_launch_instance: the config value fed to _ensure_list for SSH keys
(the or-chain happens before normalization). -/
def sshSource (cfg : ConfigLaunch) : PyVal :=
  pyOr (dGet cfg "ssh_keys") (pyOr (dGet cfg "ssh_key") (dGet cfg "ssh_key_names"))

/-- cmd_launch_instance: ssh_keys = args.ssh_keys or _ensure_list(config
chain). -/
def resolvedSshKeys (args : LaunchArgs) (cfg : ConfigLaunch) :
    Except CliError (List String) := do
  let config_ssh ← _ensure_list (sshSource cfg)
  pure (listOr args.ssh_keys config_ssh)

/-- cmd_launch_instance: name = args.name or config name. -/
def resolvedName (args : LaunchArgs) (cfg : ConfigLaunch) : PyVal :=
  pyOr (optStr args.name) (dGet cfg "name")

/-- cmd_launch_instance: hostname = args.hostname or config hostname. -/
def resolvedHostname (args : LaunchArgs) (cfg : ConfigLaunch) : PyVal :=
  pyOr (optStr args.hostname) (dGet cfg "hostname")

/-- cmd_launch_instance: filesystem names from the config alias chain,
extended with the CLI names when given, then deduplicated preserving the
first occurrence. -/
def resolvedFilesystemNames (args : LaunchArgs) (cfg : ConfigLaunch) :
    Except CliError (List String) := do
  let base ← _ensure_list
    (pyOr (dGet cfg "filesystem_names")
      (pyOr (dGet cfg "file_system_names")
        (pyOr (dGet cfg "filesystem") (dGet cfg "filesystems"))))
  let extended :=
    match args.filesystems with
    | Option.some fs => if fs.isEmpty then base else base ++ fs
    | Option.none => base
  pure (_dedupe_preserve_order extended)

/-- cmd_launch_instance: config mounts (alias chain, normalized) followed
by the CLI mounts (each parsed). -/
def resolvedMounts (args : LaunchArgs) (cfg : ConfigLaunch) :
    Except CliError (List Mount) := do
  let config_mounts ← _normalize_config_mounts
    (pyOr (dGet cfg "filesystem_mounts") (dGet cfg "file_system_mounts"))
  let cli_mounts ← (args.filesystem_mounts.getD []).mapM _parse_filesystem_mount
  pure (config_mounts ++ cli_mounts)

/-- cmd_launch_instance: normalized config tags merged with the parsed CLI
tags. -/
def resolvedTags (args : LaunchArgs) (cfg : ConfigLaunch) :
    Except CliError (List Tag) := do
  let config_tags ← _normalize_config_tags (dGet cfg "tags")
  let cli_tags ← (args.tag.getD []).mapM _parse_key_value
  pure (_merge_tags [config_tags, cli_tags])

/-- _resolve_relative_path: a relative path is joined onto the config
directory when one is known (the trailing .resolve() normalization is
immaterial to the read oracle). -/
def resolveRelative (p : String) (baseDir : Option String) : String :=
  if startsWithSlash p then p
  else
    match baseDir with
    | Option.some b => b ++ "/" ++ p
    | Option.none => p

/-- _read_file through a read oracle: the content is stripped. -/
def readTrimmed (rd : String → String) (p : String) : String := (rd p).trim

/-- cmd_launch_instance user-data resolution: inline config string, then a
config-referenced file (relative to the config directory), then the CLI
file path; the later source overwrites the earlier one. -/
def resolvedUserData (args : LaunchArgs) (cfg : ConfigLaunch)
    (configDir : Option String) (rd : String → String) : Option String :=
  let u : Option String := Option.none
  let u := if hasKeyD cfg "user_data" && (dGet cfg "user_data").truthy
    then Option.some (dGet cfg "user_data").pyStr else u
  let u := if (dGet cfg "user_data_file").truthy
    then Option.some (readTrimmed rd
      (resolveRelative (dGet cfg "user_data_file").pyStr configDir))
    else u
  let u := match args.user_data_file with
    | Option.some p => if p == "" then u else Option.some (readTrimmed rd p)
    | Option.none => u
  u

/-- Render a mount record as the payload dict it becomes in the request
body. -/
def Mount.toPy (m : Mount) : PyVal :=
  .dict [("file_system_id", .str m.file_system_id), ("mount_point", .str m.mount_point)]

/-- Render a tag record as the payload dict it becomes in the request
body. -/
def Tag.toPy (t : Tag) : PyVal :=
  .dict [("key", .str t.key), ("value", .str t.value)]

/-- The request payload cmd_launch_instance builds once every component
resolved: the three required keys in insertion order, then each optional
key exactly when its value is truthy/non-empty, in source order. -/
def launchPayload (args : LaunchArgs) (cfg : ConfigLaunch)
    (configDir : Option String) (rd : String → String)
    (ssh_keys filesystem_names : List String) (mounts : List Mount)
    (merged_tags : List Tag) (firewall_rulesets : List String) :
    List (String × PyVal) :=
  [("region_name", resolvedRegion args cfg),
   ("instance_type_name", resolvedInstanceType args cfg),
   ("ssh_key_names", .list (ssh_keys.map PyVal.str))]
  ++ (if (resolvedName args cfg).truthy then [("name", resolvedName args cfg)] else [])
  ++ (if (resolvedHostname args cfg).truthy then [("hostname", resolvedHostname args cfg)] else [])
  ++ (if filesystem_names.isEmpty then []
      else [("file_system_names", .list (filesystem_names.map PyVal.str))])
  ++ (if mounts.isEmpty then []
      else [("file_system_mounts", .list (mounts.map Mount.toPy))])
  ++ (if merged_tags.isEmpty then []
      else [("tags", .list (merged_tags.map Tag.toPy))])
  ++ (if (dGet cfg "image").truthy then [("image", dGet cfg "image")] else [])
  ++ (if firewall_rulesets.isEmpty then []
      else [("firewall_rulesets", .list (firewall_rulesets.map PyVal.str))])
  ++ (match resolvedUserData args cfg configDir rd with
      | Option.some s => if s == "" then [] else [("user_data", .str s)]
      | Option.none => [])

/-- scripts/lambda_cloud_api.py cmd_launch_instance up to the POST: build
the request payload (an insertion-ordered mapping) or abort on the first
validation error.  Key insertion order and error order follow the source;
`rd` is the file-read oracle and `configDir` the directory of the loaded
config file. -/
def cmd_launch_instance (args : LaunchArgs) (cfg : ConfigLaunch)
    (configDir : Option String) (rd : String → String) :
    Except CliError (List (String × PyVal)) :=
  if !(resolvedRegion args cfg).truthy then
    .error (.missingRequiredOption "region")
  else if !(resolvedInstanceType args cfg).truthy then
    .error (.missingRequiredOption "instanceType")
  else match resolvedSshKeys args cfg with
  | .error e => .error e
  | .ok ssh_keys =>
    if ssh_keys.isEmpty then .error (.missingRequiredOption "sshKeyNames")
    else match resolvedFilesystemNames args cfg with
    | .error e => .error e
    | .ok filesystem_names =>
      match resolvedMounts args cfg with
      | .error e => .error e
      | .ok mounts =>
        match resolvedTags args cfg with
        | .error e => .error e
        | .ok merged_tags =>
          match _ensure_list (dGet cfg "firewall_rulesets") with
          | .error e => .error e
          | .ok firewall_rulesets =>
            .ok (launchPayload args cfg configDir rd ssh_keys filesystem_names
              mounts merged_tags firewall_rulesets)

/-- The sequence of POST bodies the launch command sends: one request on
successful synthesis, none when validation aborted first. -/
def launch_http_calls (args : LaunchArgs) (cfg : ConfigLaunch)
    (configDir : Option String) (rd : String → String) :
    List (List (String × PyVal)) :=
  match cmd_launch_instance args cfg configDir rd with
  | .ok payload => [payload]
  | .error _ => []

/-- src/services/wan2.py Wan2LaunchConfig (defaults as in the dataclass;
additional_args is None or a token list). -/
structure Wan2LaunchConfig where
  task : String := "t2v-A14B"
  size : String := "1280*720"
  frame_num : Option Int := Option.none
  offload_model : Bool := true
  convert_model_dtype : Bool := true
  additional_args : Option (List String) := Option.none

/-- The Wan2Generator fields _build_command and _build_output_path read
(generate_script is model_root/generate.py, fixed at construction). -/
structure Wan2Generator where
  python_executable : String
  model_root : String
  generate_script : String
  launch_config : Wan2LaunchConfig
  output_dir : String

/-- Python `num_frames or cfg.frame_num` on optional ints (None and 0 are
falsy). -/
def intOr (a b : Option Int) : Option Int :=
  match a with
  | Option.some n => if n == 0 then b else a
  | Option.none => b

/-- Python `size or cfg.size` on an optional string against a default
string (None and the empty string are falsy). -/
def strOr (a : Option String) (b : String) : String :=
  match a with
  | Option.some s => if s == "" then b else s
  | Option.none => b

/-- src/services/wan2.py Wan2Generator._build_command: the base tokens,
then --frame_num when a frame value resolved, --size when the resolved
size is non-empty, --offload_model True and --convert_model_dtype when
enabled, --base_seed when a seed was given, then the configured extra
tokens (a None or empty configured list contributes nothing). -/
def Wan2Generator._build_command (g : Wan2Generator) (prompt save_file : String)
    (seed : Option Int) (num_frames : Option Int) (size : Option String) :
    List String :=
  let cfg := g.launch_config
  let command :=
    [g.python_executable, g.generate_script,
     "--task", cfg.task,
     "--ckpt_dir", g.model_root,
     "--prompt", prompt,
     "--save_file", save_file]
  let frame_value := intOr num_frames cfg.frame_num
  let command := command ++
    (match frame_value with
     | Option.some n => ["--frame_num", toString n]
     | Option.none => [])
  let size_value := strOr size cfg.size
  let command := command ++ (if size_value == "" then [] else ["--size", size_value])
  let command := command ++ (if cfg.offload_model then ["--offload_model", "True"] else [])
  let command := command ++ (if cfg.convert_model_dtype then ["--convert_model_dtype"] else [])
  let command := command ++
    (match seed with
     | Option.some s => ["--base_seed", toString s]
     | Option.none => [])
  let command := command ++
    (match cfg.additional_args with
     | Option.some l => if l.isEmpty then [] else l
     | Option.none => [])
  command

/-- Python prompt.split() on a character list: cut at whitespace runs,
dropping empty pieces; `acc` holds the current word reversed. -/
def splitWsAux : List Char → List Char → List (List Char)
  | [], acc => if acc.isEmpty then [] else [acc.reverse]
  | c :: rest, acc =>
    if pyIsSpace c then
      if acc.isEmpty then splitWsAux rest []
      else acc.reverse :: splitWsAux rest []
    else splitWsAux rest (c :: acc)

/-- Python prompt.split(): the whitespace-separated words. -/
def pySplitWhitespace (s : String) : List (List Char) :=
  splitWsAux s.data []

/-- src/services/wan2.py Wan2Generator._build_output_path slug:
underscore-join the whitespace-split prompt, replace every slash with an
underscore (the single-character str.replace is a character map), keep
the first 48 code points, fall back to wan2 when empty. -/
def slugOf (prompt : String) : String :=
  let joined := List.intercalate ['_'] (pySplitWhitespace prompt)
  let replaced := joined.map (fun c => if c = '/' then '_' else c)
  let truncated := replaced.take 48
  if truncated.isEmpty then "wan2" else String.mk truncated

/-- src/services/wan2.py Wan2Generator._build_output_path filename, with
the random uuid4().hex[:8] suffix passed in as `hex8`. -/
def outputFilename (prompt hex8 : String) : String :=
  slugOf prompt ++ "_" ++ hex8 ++ ".mp4"

/-- Split a character list on a separator character, mirroring the Python
str.split(sep) used by pathlib to cut a POSIX path into components. -/
def splitOnChar (c : Char) (l : List Char) : List (List Char) :=
  match l with
  | [] => [[]]
  | x :: rest =>
    match splitOnChar c rest with
    | [] => [[]]
    | h :: t => if x = c then [] :: h :: t else (x :: h) :: t

/-- pathlib PurePosixPath(s).name: the last path component after dropping
empty and single-dot components (double-dot components are kept), or the
empty string when none remain. -/
def posixPathName (s : String) : String :=
  let comps := (splitOnChar '/' s.data).filter (fun w => !(w == []) && !(w == ['.']))
  match comps.getLast? with
  | Option.some w => String.mk w
  | Option.none => ""

/-- src/main.py download_output: keep only the base name of the request
path parameter, join it onto the output directory, 404 when nothing
exists there, else serve that path.  The filesystem is abstracted by the
existence oracle `ex`. -/
def download_output (outputDir filename : String) (ex : String → Bool) :
    Except Nat String :=
  let safe_name := posixPathName filename
  let file_path := outputDir ++ "/" ++ safe_name
  if ex file_path then .ok file_path else .error 404

/-- An element is a string or None (the shapes _ensure_list tolerates
inside a sequence). -/
def isStrOrNone : PyVal → Bool
  | .none => true
  | .str _ => true
  | _ => false

/-- The strings of a heterogeneous sequence, in order, skipping the
non-string entries. -/
def strsOf : List PyVal → List String
  | [] => []
  | PyVal.str s :: rest => s :: strsOf rest
  | _ :: rest => strsOf rest

/-- What _ensure_list actually computes on a sequence: abort naming the
type of the first element that is neither a string nor None, else collect
the strings (None entries skipped). -/
def ensureListSpec (ys : List PyVal) : Except CliError (List String) :=
  match ys.find? (fun v => !isStrOrNone v) with
  | Option.some w => .error (.invalidOptionType w.typeName)
  | Option.none => .ok (strsOf ys)

/-- The slug the C6 claim describes: slash characters removed rather than
replaced. -/
def slugSpecStrip (prompt : String) : String :=
  let joined := List.intercalate ['_'] (pySplitWhitespace prompt)
  let stripped := joined.filter (fun c => !(c == '/'))
  let truncated := stripped.take 48
  if truncated.isEmpty then "wan2" else String.mk truncated

/-- The output filename the C6 claim describes. -/
def outputFilenameSpecStrip (prompt hex8 : String) : String :=
  slugSpecStrip prompt ++ "_" ++ hex8 ++ ".mp4"

/-- The base-name extraction the C10 claim describes: double-dot
components discarded like the other directory components. -/
def nameSpecC10 (s : String) : String :=
  let comps := (splitOnChar '/' s.data).filter
    (fun w => !(w == []) && !(w == ['.']) && !(w == ['.', '.']))
  match comps.getLast? with
  | Option.some w => String.mk w
  | Option.none => ""

/-- A path lying directly inside `dir`: the directory, a separator, and a
single component that is not the parent reference. -/
def insideDir (dir p : String) : Prop :=
  ∃ n, p = dir ++ "/" ++ n ∧ '/' ∉ n.data ∧ n ≠ ".."

/-- The deduplication the C7 claim describes: keep each element at its
first occurrence, removing all later duplicates. -/
def dedupeSpecF : List String → List String
  | [] => []
  | x :: rest => x :: dedupeSpecF (rest.filter (fun a => !(a == x)))
termination_by l => l.length
decreasing_by
  simp only [List.length_cons]
  exact Nat.lt_succ_of_le (List.length_filter_le _ _)

/-- The generation argument vector as the spec describes it: the fixed
head, then the conditional flags in order, with the frame count resolved
by plain request-over-config precedence and the size by
first-non-empty. -/
def buildCommandSpec (g : Wan2Generator) (prompt save_file : String)
    (seed : Option Int) (num_frames : Option Int) (size : Option String) :
    List String :=
  let cfg := g.launch_config
  let resolvedFrame :=
    match num_frames with
    | Option.some n => Option.some n
    | Option.none => cfg.frame_num
  let resolvedSize := strOr size cfg.size
  [g.python_executable, g.generate_script,
   "--task", cfg.task,
   "--ckpt_dir", g.model_root,
   "--prompt", prompt,
   "--save_file", save_file]
  ++ (match resolvedFrame with
      | Option.some n => ["--frame_num", toString n]
      | Option.none => [])
  ++ (if resolvedSize == "" then [] else ["--size", resolvedSize])
  ++ (if cfg.offload_model then ["--offload_model", "True"] else [])
  ++ (if cfg.convert_model_dtype then ["--convert_model_dtype"] else [])
  ++ (match seed with
      | Option.some s => ["--base_seed", toString s]
      | Option.none => [])
  ++ (match cfg.additional_args with
      | Option.some l => if l.isEmpty then [] else l
      | Option.none => [])

/-- The generator used in the C3 end-to-end scenario: default launch
config (task t2v-A14B, size 1280*720, no frame count, offload and convert
enabled, no extra args). -/
def c3Generator : Wan2Generator :=
  { python_executable := "python3"
    model_root := "/models/wan2"
    generate_script := "/models/wan2/generate.py"
    launch_config := {}
    output_dir := "/outputs" }

/-- Apply the override layer to one file-layer tag, per the spec words: a
key also present in the override layer keeps its position but takes the
override value. -/
def ovrBy (ov : List Tag) (t : Tag) : Tag :=
  match ov.find? (fun u => u.key == t.key) with
  | Option.some u => Tag.mk t.key u.value
  | Option.none => t

/-- The tag merge as the C2 claim describes it: file-layer entries in
order (override values winning per key), then the override-only entries
in override order. -/
def mergeTagsSpec (file ov : List Tag) : List Tag :=
  file.map (ovrBy ov) ++
    ov.filter (fun u => !((file.map Tag.key).contains u.key))

/-- The file-config layer of the C1 end-to-end scenario: region us-east-1
and ssh_keys k1 from the file. -/
def c1Cfg : ConfigLaunch :=
  [("region", .str "us-east-1"), ("ssh_keys", .list [.str "k1"])]

/-- The override layer of the C1 end-to-end scenario: --region us-west-1
and --tag env=prod, no instance type from any layer. -/
def c1Args : LaunchArgs :=
  { region := Option.some "us-west-1", tag := Option.some ["env=prod"] }

/-! ## Theorems -/

/-! ## Lemmas about first-occurrence splitting -/

theorem splitFirst_eq_none {c : Char} {l : List Char} (h : c ∉ l) :
    splitFirst c l = Option.none := by
  induction l with
  | nil => rfl
  | cons x rest ih =>
    simp only [List.mem_cons, not_or] at h
    simp only [splitFirst]
    rw [if_neg (fun hxc => h.1 hxc.symm), ih h.2]

theorem splitFirst_append {c : Char} {l₁ : List Char} (l₂ : List Char)
    (h : c ∉ l₁) : splitFirst c (l₁ ++ c :: l₂) = Option.some (l₁, l₂) := by
  induction l₁ with
  | nil => simp [splitFirst]
  | cons x rest ih =>
    simp only [List.mem_cons, not_or] at h
    have hxc : ¬ x = c := fun hxc => h.1 hxc.symm
    simp [splitFirst, hxc, ih h.2]

/-- C8: for every tag input string, a string with no = fails with
InvalidFormat, and a string of shape KEY=VALUE is split on the first =
only, so the key is everything before the first = and the value
everything after it; in particular K=V=X parses to key K, value V=X. -/
theorem C8_parse_key_value (s k v : String) (hk : '=' ∉ k.data) :
    ('=' ∉ s.data → _parse_key_value s = .error (.invalidFormat s)) ∧
    _parse_key_value (k ++ "=" ++ v) = .ok ⟨k, v⟩ ∧
    _parse_key_value "K=V=X" = .ok ⟨"K", "V=X"⟩ := by
  refine ⟨fun hs => ?_, ?_, by rfl⟩
  · simp [_parse_key_value, splitFirst_eq_none hs]
  · have hdata : (k ++ "=" ++ v).data = k.data ++ '=' :: v.data := by
      simp [String.data_append]
    simp [_parse_key_value, hdata, splitFirst_append v.data hk]

theorem C8_parse_key_value_witness :
    _parse_key_value "novalue" = .error (.invalidFormat "novalue") ∧
    _parse_key_value ("K" ++ "=" ++ "V=X") = .ok ⟨"K", "V=X"⟩ :=
  ⟨(C8_parse_key_value "novalue" "K" "V=X" (by decide)).1 (by decide),
   (C8_parse_key_value "novalue" "K" "V=X" (by decide)).2.1⟩

/-- C9: for every filesystem-mount input string, a string with no = fails
with InvalidFormat; otherwise the right-hand side of the first = is
stripped and, when it does not start with a slash, the parse fails with
InvalidMountPath, else it yields the mount record with the stripped
absolute mount point; in particular fs1=data fails with
InvalidMountPath. -/
theorem C9_parse_filesystem_mount (s fs mp : String) (hfs : '=' ∉ fs.data) :
    ('=' ∉ s.data → _parse_filesystem_mount s = .error (.invalidFormat s)) ∧
    (¬ startsWithSlash (pyStrip mp) = true →
      _parse_filesystem_mount (fs ++ "=" ++ mp) = .error (.invalidMountPath (pyStrip mp))) ∧
    (startsWithSlash (pyStrip mp) = true →
      _parse_filesystem_mount (fs ++ "=" ++ mp) = .ok ⟨pyStrip fs, pyStrip mp⟩) ∧
    _parse_filesystem_mount "fs1=data" = .error (.invalidMountPath "data") := by
  have hdata : (fs ++ "=" ++ mp).data = fs.data ++ '=' :: mp.data := by
    simp [String.data_append]
  refine ⟨fun hs => ?_, fun habs => ?_, fun habs => ?_, by rfl⟩
  · simp [_parse_filesystem_mount, splitFirst_eq_none hs]
  · simp [_parse_filesystem_mount, hdata, splitFirst_append mp.data hfs, habs]
  · simp [_parse_filesystem_mount, hdata, splitFirst_append mp.data hfs, habs]

theorem ensureListItems_eq_spec (ys : List PyVal) :
    ensureListItems ys = ensureListSpec ys := by
  induction ys with
  | nil => rfl
  | cons y rest ih =>
    cases y with
    | none => simpa [ensureListItems, ensureListSpec, strsOf, isStrOrNone] using ih
    | str s =>
      have hcons : List.find? (fun v => !isStrOrNone v) (PyVal.str s :: rest)
          = List.find? (fun v => !isStrOrNone v) rest := by
        rw [List.find?_cons]; rfl
      cases h : List.find? (fun v => !isStrOrNone v) rest with
      | none =>
        simp only [ensureListItems, ih, ensureListSpec, hcons, h, strsOf]
        rfl
      | some w =>
        simp only [ensureListItems, ih, ensureListSpec, hcons, h]
        rfl
    | int n => rfl
    | bool b => rfl
    | list xs => rfl
    | dict kvs => rfl

theorem strsOf_map_str (xs : List String) : strsOf (xs.map PyVal.str) = xs := by
  induction xs with
  | nil => rfl
  | cons x rest ih => simp [strsOf, ih]

theorem find?_map_str_eq_none (xs : List String) :
    List.find? (fun v => !isStrOrNone v) (xs.map PyVal.str) = Option.none := by
  induction xs with
  | nil => rfl
  | cons x rest ih => simp [List.find?_cons, isStrOrNone, ih]

/-- C5 counterexample: a sequence containing the non-string element None
does not fail with InvalidOptionType; the None entry is silently skipped
and the remaining strings are returned. -/
theorem C5_counterexample :
    _ensure_list (.list [.str "a", .none]) = .ok ["a"] ∧
    _ensure_list (.list [.str "a", .none]) ≠ .error (.invalidOptionType "NoneType") :=
  ⟨rfl, fun h => nomatch h⟩

/-- C5 amended: absent input normalizes to the empty sequence, a single
string to a one-element sequence, a sequence of strings is copied as-is;
inside a sequence, None elements are skipped, and the first element that
is neither a string nor None fails with InvalidOptionType naming its
type; any other input shape fails with InvalidOptionType naming its
type. -/
theorem C5_ensure_list (s : String) (xs : List String) (ys : List PyVal)
    (n : Int) (b : Bool) (kvs : List (String × PyVal)) :
    _ensure_list PyVal.none = .ok [] ∧
    _ensure_list (.str s) = .ok [s] ∧
    _ensure_list (.list (xs.map PyVal.str)) = .ok xs ∧
    _ensure_list (.list ys) = ensureListSpec ys ∧
    _ensure_list (.int n) = .error (.invalidOptionType "int") ∧
    _ensure_list (.bool b) = .error (.invalidOptionType "bool") ∧
    _ensure_list (.dict kvs) = .error (.invalidOptionType "dict") := by
  refine ⟨rfl, rfl, ?_, ?_, rfl, rfl, rfl⟩
  · show ensureListItems (xs.map PyVal.str) = .ok xs
    rw [ensureListItems_eq_spec, ensureListSpec, find?_map_str_eq_none, strsOf_map_str]
  · exact ensureListItems_eq_spec ys

theorem C9_parse_filesystem_mount_witness :
    _parse_filesystem_mount "noeq" = .error (.invalidFormat "noeq") ∧
    _parse_filesystem_mount ("fs1" ++ "=" ++ "data") = .error (.invalidMountPath (pyStrip "data")) ∧
    _parse_filesystem_mount ("fs1" ++ "=" ++ " /data ") = .ok ⟨pyStrip "fs1", pyStrip " /data "⟩ := by
  have h := C9_parse_filesystem_mount "noeq" "fs1" "data" (by decide)
  have h2 := C9_parse_filesystem_mount "noeq" "fs1" " /data " (by decide)
  exact ⟨h.1 (by decide), h.2.1 (by decide), h2.2.2.1 (by decide)⟩

/-- C6 counterexample: for the prompt a/b the code replaces the slash with
an underscore, while the claim says slashes are stripped; the two
filenames differ. -/
theorem C6_counterexample :
    outputFilename "a/b" "12345678" = "a_b_12345678.mp4" ∧
    outputFilenameSpecStrip "a/b" "12345678" = "ab_12345678.mp4" ∧
    outputFilename "a/b" "12345678" ≠ outputFilenameSpecStrip "a/b" "12345678" := by
  refine ⟨rfl, rfl, ?_⟩
  decide

/-- C6 amended: the synthesized output filename is the slug, an
underscore, the 8-hex-character random suffix and the fixed extension
.mp4, where the slug joins the whitespace-split prompt words with
underscores, REPLACES each slash with an underscore, truncates to 48
characters, and falls back to the fixed token wan2 when empty; the slug
is never empty, never longer than 48 characters, and contains no
slash. -/
theorem slug_branch_facts (l : List Char) (hlen : l.length ≤ 48) (hslash : '/' ∉ l) :
    (if l.isEmpty then "wan2" else String.mk l).length ≤ 48 ∧
    (if l.isEmpty then "wan2" else String.mk l) ≠ "" ∧
    '/' ∉ (if l.isEmpty then "wan2" else String.mk l).data := by
  by_cases h : l.isEmpty
  · rw [if_pos h]
    refine ⟨by decide, by decide, by decide⟩
  · rw [if_neg h]
    have hne : l ≠ [] := by simpa [List.isEmpty_iff] using h
    refine ⟨hlen, ?_, hslash⟩
    intro habs
    exact hne (congrArg String.data habs)

theorem C6_output_filename (prompt hex8 : String) :
    outputFilename prompt hex8 = slugOf prompt ++ "_" ++ hex8 ++ ".mp4" ∧
    (slugOf prompt).length ≤ 48 ∧
    slugOf prompt ≠ "" ∧
    '/' ∉ (slugOf prompt).data := by
  refine ⟨rfl, ?_⟩
  have heq : slugOf prompt =
      (if (((List.intercalate ['_'] (pySplitWhitespace prompt)).map
          (fun c => if c = '/' then '_' else c)).take 48).isEmpty
       then "wan2"
       else String.mk (((List.intercalate ['_'] (pySplitWhitespace prompt)).map
          (fun c => if c = '/' then '_' else c)).take 48)) := rfl
  rw [heq]
  apply slug_branch_facts
  · rw [List.length_take]
    exact Nat.min_le_left _ _
  · intro hmem
    have hmem2 := List.take_subset _ _ hmem
    rcases List.mem_map.1 hmem2 with ⟨c, _, hc⟩
    by_cases hcc : c = '/'
    · rw [if_pos hcc] at hc
      exact absurd hc.symm (by decide)
    · rw [if_neg hcc] at hc
      exact hcc (hc ▸ rfl)

theorem splitOnChar_ne_nil (c : Char) (l : List Char) : splitOnChar c l ≠ [] := by
  cases l with
  | nil => simp [splitOnChar]
  | cons x rest =>
    simp only [splitOnChar]
    cases splitOnChar c rest with
    | nil => simp
    | cons h t =>
      by_cases hx : x = c
      · simp [hx]
      · simp [hx]

theorem splitOnChar_not_mem {c : Char} {l : List Char} {w : List Char}
    (hw : w ∈ splitOnChar c l) : c ∉ w := by
  induction l generalizing w with
  | nil =>
    simp only [splitOnChar, List.mem_singleton] at hw
    subst hw
    exact List.not_mem_nil c
  | cons x rest ih =>
    simp only [splitOnChar] at hw
    cases hsp : splitOnChar c rest with
    | nil => exact absurd hsp (splitOnChar_ne_nil c rest)
    | cons h t =>
      rw [hsp] at hw
      dsimp only at hw
      by_cases hx : x = c
      · rw [if_pos hx] at hw
        rcases List.mem_cons.1 hw with hw1 | hw2
        · subst hw1; exact List.not_mem_nil c
        · exact ih (hsp ▸ hw2)
      · rw [if_neg hx] at hw
        rcases List.mem_cons.1 hw with hw1 | hw2
        · subst hw1
          intro hcmem
          rcases List.mem_cons.1 hcmem with hc1 | hc2
          · exact hx hc1.symm
          · exact ih (hsp ▸ List.mem_cons_self h t) hc2
        · exact ih (hsp ▸ List.mem_cons.2 (Or.inr hw2))

theorem posixPathName_no_slash (s : String) : '/' ∉ (posixPathName s).data := by
  have hdef : posixPathName s =
      (match ((splitOnChar '/' s.data).filter
          (fun w => !(w == []) && !(w == ['.']))).getLast? with
       | Option.some w => String.mk w
       | Option.none => "") := rfl
  cases hlast : ((splitOnChar '/' s.data).filter
      (fun w => !(w == []) && !(w == ['.']))).getLast? with
  | none =>
    rw [hdef, hlast]
    decide
  | some w =>
    rw [hdef, hlast]
    have hmem : w ∈ (splitOnChar '/' s.data).filter
        (fun w => !(w == []) && !(w == ['.'])) := List.mem_of_getLast?_eq_some hlast
    have hmem2 : w ∈ splitOnChar '/' s.data := List.mem_of_mem_filter hmem
    exact splitOnChar_not_mem hmem2

/-- C10 counterexample: a supplied name whose final component is the
double dot is NOT discarded; the path looked up is the parent of the
output directory, not a path inside it, contradicting the claimed
discarding of double-dot components. -/
theorem C10_counterexample :
    posixPathName ".." = ".." ∧
    nameSpecC10 ".." = "" ∧
    download_output "/outputs" ".." (fun _ => true) = .ok "/outputs/.." ∧
    download_output "/outputs" ".." (fun _ => true) ≠
      .ok ("/outputs" ++ "/" ++ nameSpecC10 "..") := by
  refine ⟨rfl, rfl, rfl, ?_⟩
  intro h
  have := Except.ok.inj h
  exact absurd this (by decide)

/-- C10 amended: the path looked up is always the output directory joined
with the final path component of the supplied name (leading directory
components, single-dot components and any leading slash are discarded,
but a final double-dot component is kept and then denotes the output
parent of the output directory); that final component never contains a separator, so
whenever it is not the double dot the looked-up path lies directly inside
the output directory; when nothing exists at the looked-up path the
request fails with 404. -/
theorem C10_download_output (outputDir filename : String) (ex : String → Bool) :
    download_output outputDir filename ex =
      (if ex (outputDir ++ "/" ++ posixPathName filename)
       then .ok (outputDir ++ "/" ++ posixPathName filename)
       else .error 404) ∧
    '/' ∉ (posixPathName filename).data ∧
    (∀ p, download_output outputDir filename ex = .ok p →
      posixPathName filename ≠ ".." → insideDir outputDir p) := by
  refine ⟨rfl, posixPathName_no_slash filename, ?_⟩
  intro p hp hne
  unfold download_output at hp
  by_cases hex : ex (outputDir ++ "/" ++ posixPathName filename)
  · rw [if_pos hex] at hp
    exact ⟨posixPathName filename, (Except.ok.inj hp).symm,
      posixPathName_no_slash filename, hne⟩
  · rw [if_neg hex] at hp
    exact absurd hp (fun h => nomatch h)

theorem C10_download_output_witness :
    insideDir "/outputs" "/outputs/b" := by
  have h := C10_download_output "/outputs" "a/../b" (fun _ => true)
  exact h.2.2 "/outputs/b" (by rfl) (by decide)

theorem dedupeAux_cons (seen : List String) (x : String) (rest : List String) :
    dedupeAux seen (x :: rest) =
      if seen.contains x then dedupeAux seen rest
      else x :: dedupeAux (x :: seen) rest := rfl

theorem dedupeAux_mem (l : List String) :
    ∀ (seen : List String) (a : String),
      a ∈ dedupeAux seen l ↔ a ∈ l ∧ a ∉ seen := by
  induction l with
  | nil => intro seen a; simp [dedupeAux]
  | cons x rest ih =>
    intro seen a
    rw [dedupeAux_cons]
    by_cases hx : seen.contains x
    · have hxs : x ∈ seen := by simpa using hx
      rw [if_pos hx, ih seen a]
      constructor
      · rintro ⟨h1, h2⟩; exact ⟨List.mem_cons_of_mem x h1, h2⟩
      · rintro ⟨h1, h2⟩
        rcases List.mem_cons.1 h1 with rfl | h1
        · exact absurd hxs h2
        · exact ⟨h1, h2⟩
    · have hxs : x ∉ seen := by simpa using hx
      rw [if_neg hx, List.mem_cons, ih (x :: seen) a]
      constructor
      · rintro (rfl | ⟨h1, h2⟩)
        · exact ⟨List.mem_cons_self _ _, hxs⟩
        · simp only [List.mem_cons, not_or] at h2
          exact ⟨List.mem_cons_of_mem x h1, h2.2⟩
      · rintro ⟨h1, h2⟩
        rcases List.mem_cons.1 h1 with rfl | h1
        · exact Or.inl rfl
        · by_cases hax : a = x
          · exact Or.inl hax
          · exact Or.inr ⟨h1, by simp [hax, h2]⟩

theorem dedupeAux_nodup (l : List String) :
    ∀ seen : List String, (dedupeAux seen l).Nodup := by
  induction l with
  | nil => intro seen; simp [dedupeAux]
  | cons x rest ih =>
    intro seen
    rw [dedupeAux_cons]
    by_cases hx : seen.contains x
    · rw [if_pos hx]; exact ih seen
    · rw [if_neg hx]
      refine List.Nodup.cons ?_ (ih (x :: seen))
      intro habs
      have := (dedupeAux_mem rest (x :: seen) x).1 habs
      exact this.2 (List.mem_cons_self x seen)

theorem dedupeAux_eq_spec (l : List String) :
    ∀ seen : List String,
      dedupeAux seen l = dedupeSpecF (l.filter (fun a => !(seen.contains a))) := by
  induction l with
  | nil => intro seen; simp [dedupeAux, dedupeSpecF]
  | cons x rest ih =>
    intro seen
    rw [dedupeAux_cons]
    by_cases hx : seen.contains x
    · rw [if_pos hx, List.filter_cons_of_neg (by simpa using hx), ih seen]
    · rw [if_neg hx, List.filter_cons_of_pos (by simpa using hx), dedupeSpecF,
        ih (x :: seen)]
      have hfeq : rest.filter (fun a => !((x :: seen).contains a)) =
          (rest.filter (fun a => !(seen.contains a))).filter (fun a => !(a == x)) := by
        rw [List.filter_filter]
        apply List.filter_congr
        intro a _
        simp only [List.contains_cons, Bool.not_or]
      rw [hfeq]

theorem dedupe_eq_spec (l : List String) :
    _dedupe_preserve_order l = dedupeSpecF l := by
  rw [_dedupe_preserve_order, dedupeAux_eq_spec l []]
  congr 1
  simp

/-- C7: merging two filesystem-name sequences concatenates the file-config
sequence with the override sequence and deduplicates preserving the first
occurrence: the result keeps each name once at its first position (all
later duplicates dropped), has no duplicates, and contains exactly the
names of both layers; in particular a b merged with b c yields a b c. -/
theorem C7_filesystem_names_merge (file ov : List String) :
    _dedupe_preserve_order (file ++ ov) = dedupeSpecF (file ++ ov) ∧
    (_dedupe_preserve_order (file ++ ov)).Nodup ∧
    (∀ a, a ∈ _dedupe_preserve_order (file ++ ov) ↔ a ∈ file ++ ov) ∧
    _dedupe_preserve_order (["a", "b"] ++ ["b", "c"]) = ["a", "b", "c"] := by
  refine ⟨dedupe_eq_spec _, dedupeAux_nodup _ [], fun a => ?_, by rfl⟩
  rw [_dedupe_preserve_order, dedupeAux_mem (file ++ ov) [] a]
  simp

/-- C3: for every resolved generation option set (frame counts are
positive when given), the synthesized argument vector is exactly the
ordered sequence the spec describes: interpreter, script, --task,
--ckpt_dir, --prompt, --save_file, then --frame_num only if a frame count
resolved (request over config), --size only if the resolved size is
non-empty, --offload_model True and --convert_model_dtype only when
enabled, --base_seed only when a seed was given, then the configured
extra tokens; in particular the end-to-end scenario options produce a
vector ending in --offload_model True --convert_model_dtype --base_seed
42, containing --size 1280*720 and no --frame_num token. -/
theorem C3_build_command (g : Wan2Generator) (prompt save_file : String)
    (seed : Option Int) (num_frames : Option Int) (size : Option String)
    (hnf : num_frames ≠ Option.some 0) :
    g._build_command prompt save_file seed num_frames size =
      buildCommandSpec g prompt save_file seed num_frames size ∧
    c3Generator._build_command "p" "/outputs/p_ab12cd34.mp4"
        (Option.some 42) Option.none Option.none =
      ["python3", "/models/wan2/generate.py",
       "--task", "t2v-A14B",
       "--ckpt_dir", "/models/wan2",
       "--prompt", "p",
       "--save_file", "/outputs/p_ab12cd34.mp4",
       "--size", "1280*720",
       "--offload_model", "True",
       "--convert_model_dtype",
       "--base_seed", "42"] ∧
    "--frame_num" ∉ c3Generator._build_command "p" "/outputs/p_ab12cd34.mp4"
        (Option.some 42) Option.none Option.none := by
  refine ⟨?_, by rfl, by decide⟩
  unfold Wan2Generator._build_command buildCommandSpec
  cases num_frames with
  | none => rfl
  | some n =>
    have hn : ¬ n == 0 := by
      simpa using fun h => hnf (congrArg Option.some h)
    simp only [intOr, hn, Bool.false_eq_true, if_neg, not_false_iff]

theorem find?_key_eq_none {k : String} {ts : List Tag}
    (h : k ∉ ts.map Tag.key) :
    ts.find? (fun u => u.key == k) = Option.none := by
  rw [List.find?_eq_none]
  intro u hu habs
  exact h (List.mem_map.2 ⟨u, hu, (eq_of_beq habs)⟩)

theorem foldIns_cons (m : List Tag) (t : Tag) (rest : List Tag) :
    foldIns m (t :: rest) = foldIns (dictInsert m t.key t.value) rest := rfl

theorem ovrBy_nil (u : Tag) : ovrBy [] u = u := rfl

theorem ovrBy_not_mem {ov : List Tag} {u : Tag} (h : u.key ∉ ov.map Tag.key) :
    ovrBy ov u = u := by
  simp [ovrBy, find?_key_eq_none h]

theorem ovrBy_cons_hit {t u : Tag} (rest : List Tag) (h : u.key = t.key) :
    ovrBy (t :: rest) u = Tag.mk u.key t.value := by
  have hb : (t.key == u.key) = true := by simp [h]
  simp [ovrBy, List.find?_cons, hb]

theorem ovrBy_cons_miss {t u : Tag} (rest : List Tag) (h : ¬ u.key = t.key) :
    ovrBy (t :: rest) u = ovrBy rest u := by
  have hb : (t.key == u.key) = false := by
    simp only [beq_eq_false_iff_ne]
    exact fun habs => h habs.symm
  simp [ovrBy, List.find?_cons, hb]

theorem foldIns_fresh (ts : List Tag) : ∀ m : List Tag,
    (∀ t ∈ ts, ∀ u ∈ m, t.key ≠ u.key) → (ts.map Tag.key).Nodup →
    foldIns m ts = m ++ ts := by
  induction ts with
  | nil => intro m _ _; simp [foldIns]
  | cons t rest ih =>
    intro m hfresh hnodup
    rw [List.map_cons, List.nodup_cons] at hnodup
    have hins : dictInsert m t.key t.value = m ++ [t] := by
      rw [dictInsert, if_neg]
      simp only [List.any_eq_true, not_exists, not_and]
      intro u hu habs
      exact hfresh t (List.mem_cons_self _ _) u hu (eq_of_beq habs).symm
    have hfresh2 : ∀ s ∈ rest, ∀ u ∈ m ++ [t], s.key ≠ u.key := by
      intro s hs u hu
      rcases List.mem_append.1 hu with hum | hut
      · exact hfresh s (List.mem_cons_of_mem t hs) u hum
      · rw [List.mem_singleton.1 hut]
        intro habs
        exact hnodup.1 (habs ▸ List.mem_map.2 ⟨s, hs, rfl⟩)
    rw [foldIns_cons, hins, ih (m ++ [t]) hfresh2 hnodup.2,
      List.append_assoc, List.singleton_append]

theorem foldIns_override (ov : List Tag) : ∀ m : List Tag,
    (ov.map Tag.key).Nodup →
    foldIns m ov = m.map (ovrBy ov) ++
      ov.filter (fun u => !((m.map Tag.key).contains u.key)) := by
  induction ov with
  | nil =>
    intro m _
    have hid : m.map (ovrBy []) = m := by
      rw [show ovrBy [] = id from funext fun u => rfl, List.map_id]
    simp [foldIns, hid]
  | cons t rest ih =>
    intro m hnodup
    rw [List.map_cons, List.nodup_cons] at hnodup
    have hk : t.key ∉ rest.map Tag.key := hnodup.1
    rw [foldIns_cons]
    by_cases hmem : m.any (fun u => u.key == t.key)
    · -- the key exists in the dict: in-place update
      have hins : dictInsert m t.key t.value =
          m.map (fun u => if u.key == t.key then ⟨t.key, t.value⟩ else u) := by
        rw [dictInsert, if_pos hmem]
      have htk : t.key ∈ m.map Tag.key := by
        rcases List.any_eq_true.1 hmem with ⟨u, hu, hub⟩
        exact List.mem_map.2 ⟨u, hu, (eq_of_beq hub)⟩
      rw [hins, ih _ hnodup.2]
      have hmap : (m.map (fun u => if u.key == t.key then (⟨t.key, t.value⟩ : Tag) else u)).map
          (ovrBy rest) = m.map (ovrBy (t :: rest)) := by
        rw [List.map_map]
        apply List.map_congr_left
        intro u _
        simp only [Function.comp]
        by_cases hueq : u.key = t.key
        · have hb : (u.key == t.key) = true := by simp [hueq]
          rw [ovrBy_cons_hit rest hueq]
          simp only [hb, if_true]
          rw [ovrBy_not_mem (by simpa using hk), hueq]
        · have hb : (u.key == t.key) = false := by
            simp only [beq_eq_false_iff_ne]
            exact hueq
          simp only [hb, Bool.false_eq_true, if_false]
          rw [ovrBy_cons_miss rest hueq]
      have hkeys : (m.map (fun u => if u.key == t.key then (⟨t.key, t.value⟩ : Tag) else u)).map
          Tag.key = m.map Tag.key := by
        rw [List.map_map]
        apply List.map_congr_left
        intro u _
        simp only [Function.comp]
        by_cases hueq : u.key = t.key
        · have hb : (u.key == t.key) = true := by simp [hueq]
          simp only [hb, if_true]
          exact hueq.symm
        · have hb : (u.key == t.key) = false := by
            simp only [beq_eq_false_iff_ne]
            exact hueq
          simp only [hb, Bool.false_eq_true, if_false]
      have htail : (t :: rest).filter
          (fun u => !((m.map Tag.key).contains u.key)) = rest.filter
          (fun u => !((m.map Tag.key).contains u.key)) := by
        rw [List.filter_cons_of_neg]
        simpa using htk
      rw [hmap, hkeys, htail]
    · -- fresh key: appended at the end
      have hins : dictInsert m t.key t.value = m ++ [t] := by
        rw [dictInsert, if_neg hmem]
      have htk : t.key ∉ m.map Tag.key := by
        intro habs
        rcases List.mem_map.1 habs with ⟨u, hu, hueq⟩
        exact hmem (List.any_eq_true.2 ⟨u, hu, by simp [hueq]⟩)
      rw [hins, ih _ hnodup.2, List.map_append, List.map_append]
      have hsingle : [t].map (ovrBy rest) = [t] := by
        simp only [List.map_cons, List.map_nil]
        rw [ovrBy_not_mem hk]
      have hmap : m.map (ovrBy rest) = m.map (ovrBy (t :: rest)) := by
        apply List.map_congr_left
        intro u hu
        have hune : ¬ u.key = t.key := by
          intro habs
          exact htk (habs ▸ List.mem_map.2 ⟨u, hu, rfl⟩)
        rw [ovrBy_cons_miss rest hune]
      have hfilter : rest.filter
          (fun u => !(((m.map Tag.key) ++ [t].map Tag.key).contains u.key)) =
          rest.filter (fun u => !((m.map Tag.key).contains u.key)) := by
        apply List.filter_congr
        intro u hu
        have hune : ¬ u.key = t.key := fun habs =>
          hk (habs ▸ List.mem_map.2 ⟨u, hu, rfl⟩)
        have h1 : ((m.map Tag.key) ++ [t].map Tag.key).contains u.key
            = (m.map Tag.key).contains u.key := by
          simp [List.mem_append, hune]
        rw [h1]
      have hhead : (t :: rest).filter
          (fun u => !((m.map Tag.key).contains u.key)) = t :: rest.filter
          (fun u => !((m.map Tag.key).contains u.key)) := by
        rw [List.filter_cons_of_pos]
        simpa using htk
      rw [hsingle, hmap, hfilter, hhead, List.append_assoc, List.singleton_append]

/-- C2: for every pair of tag lists with unique keys per layer (the
normalized form), the merged tag list is exactly: the file-config entries
in their original order, each key present in both layers keeping its file
position but taking the override value, followed by the override-only
entries in override order; consequently every key appears exactly
once. -/
theorem C2_merge_tags (file ov : List Tag)
    (hf : (file.map Tag.key).Nodup) (ho : (ov.map Tag.key).Nodup) :
    _merge_tags [file, ov] = mergeTagsSpec file ov ∧
    ((_merge_tags [file, ov]).map Tag.key).Nodup := by
  have heta : ∀ l : List Tag, l.map (fun t => Tag.mk t.key t.value) = l := by
    intro l
    rw [show (fun t : Tag => Tag.mk t.key t.value) = id from funext fun t => rfl,
      List.map_id]
  have hchain : _merge_tags [file, ov] = foldIns (foldIns [] file) ov := by
    rw [_merge_tags]
    simp only [List.foldl]
    exact heta _
  have hfile : foldIns [] file = file := by
    rw [foldIns_fresh file []
      (by intro t _ u hu; exact absurd hu (List.not_mem_nil u)) hf]
    simp
  have hspec : _merge_tags [file, ov] = mergeTagsSpec file ov := by
    rw [hchain, hfile, foldIns_override ov file ho, mergeTagsSpec]
  refine ⟨hspec, ?_⟩
  rw [hspec, mergeTagsSpec, List.map_append]
  have hkeys1 : (file.map (ovrBy ov)).map Tag.key = file.map Tag.key := by
    rw [List.map_map]
    apply List.map_congr_left
    intro u _
    simp only [Function.comp]
    rw [ovrBy]
    cases h : ov.find? (fun w => w.key == u.key) with
    | none => rfl
    | some w => rfl
  rw [hkeys1, List.nodup_append]
  refine ⟨hf, ?_, ?_⟩
  · exact ((List.filter_sublist ov).map Tag.key).nodup ho
  · intro a ha hb
    rcases List.mem_map.1 hb with ⟨u, hu, hueq⟩
    have hpu := List.of_mem_filter hu
    have hnotin : u.key ∉ file.map Tag.key := by simpa using hpu
    rw [← hueq] at ha
    exact hnotin ha

theorem C2_merge_tags_witness :
    _merge_tags [[Tag.mk "a" "1", Tag.mk "b" "2"], [Tag.mk "b" "3", Tag.mk "c" "4"]]
      = mergeTagsSpec [Tag.mk "a" "1", Tag.mk "b" "2"] [Tag.mk "b" "3", Tag.mk "c" "4"] :=
  (C2_merge_tags [Tag.mk "a" "1", Tag.mk "b" "2"] [Tag.mk "b" "3", Tag.mk "c" "4"]
    (by decide) (by decide)).1

theorem launch_http_calls_of_error {args : LaunchArgs} {cfg : ConfigLaunch}
    {configDir : Option String} {rd : String → String} {e : CliError}
    (h : cmd_launch_instance args cfg configDir rd = .error e) :
    launch_http_calls args cfg configDir rd = [] := by
  rw [launch_http_calls, h]

/-- C1: whenever the merged region is missing, or the merged instance type
is missing, or the SSH-key list resolves to empty, the launch command
fails with MissingRequiredOption naming that field and sends no HTTP
request; in particular the end-to-end scenario (file-config region
us-east-1 with ssh_keys k1, overrides region us-west-1 and tag env=prod,
no instance type anywhere) fails naming instanceType with no request
sent. -/
theorem C1_launch_validation (args : LaunchArgs) (cfg : ConfigLaunch)
    (configDir : Option String) (rd : String → String) :
    ((resolvedRegion args cfg).truthy = false →
      cmd_launch_instance args cfg configDir rd
        = .error (.missingRequiredOption "region") ∧
      launch_http_calls args cfg configDir rd = []) ∧
    ((resolvedRegion args cfg).truthy = true →
      (resolvedInstanceType args cfg).truthy = false →
      cmd_launch_instance args cfg configDir rd
        = .error (.missingRequiredOption "instanceType") ∧
      launch_http_calls args cfg configDir rd = []) ∧
    ((resolvedRegion args cfg).truthy = true →
      (resolvedInstanceType args cfg).truthy = true →
      resolvedSshKeys args cfg = .ok [] →
      cmd_launch_instance args cfg configDir rd
        = .error (.missingRequiredOption "sshKeyNames") ∧
      launch_http_calls args cfg configDir rd = []) ∧
    (cmd_launch_instance c1Args c1Cfg configDir rd
        = .error (.missingRequiredOption "instanceType") ∧
      launch_http_calls c1Args c1Cfg configDir rd = []) := by
  refine ⟨fun hreg => ?_, fun hreg hit => ?_, fun hreg hit hssh => ?_, ?_⟩
  · have h : cmd_launch_instance args cfg configDir rd
        = .error (.missingRequiredOption "region") := by
      unfold cmd_launch_instance
      rw [if_pos (by simp [hreg])]
    exact ⟨h, launch_http_calls_of_error h⟩
  · have h : cmd_launch_instance args cfg configDir rd
        = .error (.missingRequiredOption "instanceType") := by
      unfold cmd_launch_instance
      rw [if_neg (by simp [hreg]), if_pos (by simp [hit])]
    exact ⟨h, launch_http_calls_of_error h⟩
  · have h : cmd_launch_instance args cfg configDir rd
        = .error (.missingRequiredOption "sshKeyNames") := by
      unfold cmd_launch_instance
      rw [if_neg (by simp [hreg]), if_neg (by simp [hit]), hssh]
      rfl
    exact ⟨h, launch_http_calls_of_error h⟩
  · have h : cmd_launch_instance c1Args c1Cfg configDir rd
        = .error (.missingRequiredOption "instanceType") := by rfl
    exact ⟨h, launch_http_calls_of_error h⟩

theorem C1_launch_validation_witness :
    cmd_launch_instance { : LaunchArgs} [] Option.none (fun _ => "")
      = .error (.missingRequiredOption "region") ∧
    cmd_launch_instance { region := Option.some "r" : LaunchArgs} [] Option.none (fun _ => "")
      = .error (.missingRequiredOption "instanceType") ∧
    cmd_launch_instance
        { region := Option.some "r", instance_type := Option.some "t" : LaunchArgs}
        [] Option.none (fun _ => "")
      = .error (.missingRequiredOption "sshKeyNames") :=
  ⟨((C1_launch_validation { : LaunchArgs} [] Option.none (fun _ => "")).1
      (by rfl)).1,
   ((C1_launch_validation { region := Option.some "r" : LaunchArgs} [] Option.none
      (fun _ => "")).2.1 (by rfl) (by rfl)).1,
   ((C1_launch_validation
      { region := Option.some "r", instance_type := Option.some "t" : LaunchArgs}
      [] Option.none (fun _ => "")).2.2.1 (by rfl) (by rfl) (by rfl)).1⟩

theorem cmd_launch_instance_ok_inv {args : LaunchArgs} {cfg : ConfigLaunch}
    {configDir : Option String} {rd : String → String}
    {payload : List (String × PyVal)}
    (h : cmd_launch_instance args cfg configDir rd = .ok payload) :
    ∃ ssh fs mounts tags fw,
      resolvedSshKeys args cfg = .ok ssh ∧ ssh.isEmpty = false ∧
      resolvedFilesystemNames args cfg = .ok fs ∧
      resolvedMounts args cfg = .ok mounts ∧
      resolvedTags args cfg = .ok tags ∧
      _ensure_list (dGet cfg "firewall_rulesets") = .ok fw ∧
      payload = launchPayload args cfg configDir rd ssh fs mounts tags fw := by
  unfold cmd_launch_instance at h
  split at h
  · exact absurd h (by simp)
  split at h
  · exact absurd h (by simp)
  split at h
  · exact absurd h (by simp)
  rename_i ssh hssh
  split at h
  · exact absurd h (by simp)
  rename_i hne
  split at h
  · exact absurd h (by simp)
  rename_i fs hfs
  split at h
  · exact absurd h (by simp)
  rename_i mounts hm
  split at h
  · exact absurd h (by simp)
  rename_i tags ht
  split at h
  · exact absurd h (by simp)
  rename_i fw hfw
  exact ⟨ssh, fs, mounts, tags, fw, hssh, by simpa using hne, hfs, hm, ht, hfw,
    (Except.ok.inj h).symm⟩

theorem map_fst_ite_single (c : Prop) [Decidable c] (k : String) (v : PyVal) :
    (if c then [(k, v)] else []).map Prod.fst = if c then [k] else [] := by
  split <;> rfl

theorem map_fst_ite_single2 (c : Prop) [Decidable c] (k : String) (v : PyVal) :
    (if c then [] else [(k, v)]).map Prod.fst = if c then [] else [k] := by
  split <;> rfl

theorem map_fst_ud (args : LaunchArgs) (cfg : ConfigLaunch)
    (configDir : Option String) (rd : String → String) :
    (match resolvedUserData args cfg configDir rd with
     | Option.some s => if s == "" then [] else [("user_data", PyVal.str s)]
     | Option.none => ([] : List (String × PyVal))).map Prod.fst =
    (match resolvedUserData args cfg configDir rd with
     | Option.some s => if s == "" then [] else ["user_data"]
     | Option.none => []) := by
  cases resolvedUserData args cfg configDir rd with
  | none => rfl
  | some s => by_cases h : s == "" <;> simp [h]

theorem launchPayload_keys (args : LaunchArgs) (cfg : ConfigLaunch)
    (configDir : Option String) (rd : String → String)
    (ssh fs : List String) (mounts : List Mount) (tags : List Tag)
    (fw : List String) :
    (launchPayload args cfg configDir rd ssh fs mounts tags fw).map Prod.fst =
      ["region_name", "instance_type_name", "ssh_key_names"]
      ++ (if (resolvedName args cfg).truthy then ["name"] else [])
      ++ (if (resolvedHostname args cfg).truthy then ["hostname"] else [])
      ++ (if fs.isEmpty then [] else ["file_system_names"])
      ++ (if mounts.isEmpty then [] else ["file_system_mounts"])
      ++ (if tags.isEmpty then [] else ["tags"])
      ++ (if (dGet cfg "image").truthy then ["image"] else [])
      ++ (if fw.isEmpty then [] else ["firewall_rulesets"])
      ++ (match resolvedUserData args cfg configDir rd with
          | Option.some s => if s == "" then [] else ["user_data"]
          | Option.none => []) := by
  unfold launchPayload
  simp only [List.map_append, List.map_cons, List.map_nil, map_fst_ite_single,
    map_fst_ite_single2, map_fst_ud]

/-- C4: every successfully synthesized launch request body contains the
keys region_name, instance_type_name and ssh_key_names, and contains each
optional key (name, hostname, file_system_names, file_system_mounts,
tags, image, firewall_rulesets, user_data) exactly when its resolved
value is truthy/non-empty — an empty or absent optional value leaves the
key entirely out of the body. -/
theorem C4_payload_keys (args : LaunchArgs) (cfg : ConfigLaunch)
    (configDir : Option String) (rd : String → String)
    (payload : List (String × PyVal))
    (h : cmd_launch_instance args cfg configDir rd = .ok payload) :
    "region_name" ∈ payload.map Prod.fst ∧
    "instance_type_name" ∈ payload.map Prod.fst ∧
    "ssh_key_names" ∈ payload.map Prod.fst ∧
    ("name" ∈ payload.map Prod.fst ↔ (resolvedName args cfg).truthy = true) ∧
    ("hostname" ∈ payload.map Prod.fst ↔ (resolvedHostname args cfg).truthy = true) ∧
    ("file_system_names" ∈ payload.map Prod.fst ↔
      ∃ fs, resolvedFilesystemNames args cfg = .ok fs ∧ fs ≠ []) ∧
    ("file_system_mounts" ∈ payload.map Prod.fst ↔
      ∃ ms, resolvedMounts args cfg = .ok ms ∧ ms ≠ []) ∧
    ("tags" ∈ payload.map Prod.fst ↔
      ∃ ts, resolvedTags args cfg = .ok ts ∧ ts ≠ []) ∧
    ("image" ∈ payload.map Prod.fst ↔ (dGet cfg "image").truthy = true) ∧
    ("firewall_rulesets" ∈ payload.map Prod.fst ↔
      ∃ fw, _ensure_list (dGet cfg "firewall_rulesets") = .ok fw ∧ fw ≠ []) ∧
    ("user_data" ∈ payload.map Prod.fst ↔
      ∃ s, resolvedUserData args cfg configDir rd = Option.some s ∧ s ≠ "") := by
  obtain ⟨ssh, fs, mounts, tags, fw, hssh, hne, hfs, hm, ht, hfw, hpay⟩ :=
    cmd_launch_instance_ok_inv h
  subst hpay
  rw [launchPayload_keys]
  cases hud : resolvedUserData args cfg configDir rd with
  | none =>
    refine ⟨by simp, by simp, by simp, ?_, ?_, ?_, ?_, ?_, ?_, ?_, ?_⟩ <;>
      simp [hfs, hm, ht, hfw]
  | some s =>
    by_cases hs : s = "" <;>
      · refine ⟨by simp, by simp, by simp, ?_, ?_, ?_, ?_, ?_, ?_, ?_, ?_⟩ <;>
          simp [hfs, hm, ht, hfw, hs]

theorem C4_payload_keys_witness :
    "region_name" ∈ (launchPayload
      { region := Option.some "r", instance_type := Option.some "t",
        ssh_keys := Option.some ["k"] : LaunchArgs}
      [] Option.none (fun _ => "") ["k"] [] [] [] []).map Prod.fst :=
  (C4_payload_keys
    { region := Option.some "r", instance_type := Option.some "t",
      ssh_keys := Option.some ["k"] : LaunchArgs}
    [] Option.none (fun _ => "") _ (by rfl)).1

theorem C3_build_command_witness :
    c3Generator._build_command "p" "/outputs/p_ab12cd34.mp4"
        (Option.some 42) Option.none Option.none =
      buildCommandSpec c3Generator "p" "/outputs/p_ab12cd34.mp4"
        (Option.some 42) Option.none Option.none :=
  (C3_build_command c3Generator "p" "/outputs/p_ab12cd34.mp4"
    (Option.some 42) Option.none Option.none (by decide)).1

end NnServ
